import Mathlib

/-!
Shallow embedding of the revm FFI wrapper (revm_ffi_wrapper crate):
hex text helpers and result marshaling from src/utils.rs, the wire-format
layer from src/statedb_types.rs, the Go-backed database adapter and commit
pipeline from src/go_db.rs, and the exported entry points from src/lib.rs.
Strings are modelled as lists of characters, byte buffers as lists of
naturals below 256, and 256-bit integers as naturals below 2 ^ 256.
The embedded virtual-machine engine (the revm crate) is out of scope and
appears only as a universally quantified replay function.
-/

namespace RevmSpec

/-- Raw byte strings: each element is a byte value (kept below 256 by the
operations that produce them). A 20-byte address is such a list of length 20. -/
abbrev AddrBytes := List Nat

/-- Value of one ASCII hex digit, by byte ranges, as the hex crate decodes it:
digits, lowercase a-f, uppercase A-F; anything else is rejected. -/
def hexVal (c : Char) : Option Nat :=
  if 48 ≤ c.toNat ∧ c.toNat ≤ 57 then some (c.toNat - 48)
  else if 97 ≤ c.toNat ∧ c.toNat ≤ 102 then some (c.toNat - 87)
  else if 65 ≤ c.toNat ∧ c.toNat ≤ 70 then some (c.toNat - 55)
  else none

/-- Lowercase hex digit for a value below 16, as the hex crate encodes it. -/
def toHexChar (n : Nat) : Char :=
  if n < 10 then Char.ofNat (48 + n) else Char.ofNat (87 + n)

/-- ASCII lowercasing of one character (uppercase letters get 32 added). -/
def charToLower (c : Char) : Char :=
  if 65 ≤ c.toNat ∧ c.toNat ≤ 90 then Char.ofNat (c.toNat + 32) else c

/-- Pairwise hex decoding, as hex::decode: two digits per byte, failing on an
odd-length string or a non-hex character. -/
def hexDecode : List Char → Option (List Nat)
  | [] => some []
  | [_] => none
  | c1 :: c2 :: rest =>
    match hexVal c1, hexVal c2, hexDecode rest with
    | some hi, some lo, some bs => some ((16 * hi + lo) :: bs)
    | _, _, _ => none

/-- Hex encoding, as hex::encode: two lowercase digits per byte. -/
def hexEncode : List Nat → List Char
  | [] => []
  | b :: rest => toHexChar (b / 16) :: toHexChar (b % 16) :: hexEncode rest

/-- Dropping one leading "0x", as str::strip applied with the "0x" pattern in
hex_to_address and hex_to_u256 (utils.rs); other strings pass unchanged. -/
def strip0x (s : List Char) : List Char :=
  match s with
  | c1 :: c2 :: rest => if c1 = '0' ∧ c2 = 'x' then rest else s
  | _ => s

/-- Models hex_to_address (utils.rs): drop an optional "0x", require exactly
40 hex characters, decode, and require 20 bytes. -/
def hex_to_address (s : List Char) : Option AddrBytes :=
  if (strip0x s).length = 40 then
    match hexDecode (strip0x s) with
    | some bytes => if bytes.length = 20 then some bytes else none
    | none => none
  else none

/-- Models address_to_hex (utils.rs): the Address LowerHex formatting produces
"0x" followed by all 20 bytes as lowercase hex. -/
def address_to_hex (a : AddrBytes) : List Char :=
  '0' :: 'x' :: hexEncode a

/-- Digit-accumulation loop of U256::from_str_radix with radix 16. -/
def hexAccum (acc : Nat) : List Char → Option Nat
  | [] => some acc
  | c :: rest =>
    match hexVal c with
    | some v => hexAccum (16 * acc + v) rest
    | none => none

/-- Models hex_to_u256 (utils.rs): drop an optional "0x" and parse with
U256::from_str_radix; the empty string, a bad digit, or overflow past
2 ^ 256 is an error. -/
def hex_to_u256 (s : List Char) : Option Nat :=
  match strip0x s with
  | [] => none
  | t =>
    match hexAccum 0 t with
    | some v => if v < 2 ^ 256 then some v else none
    | none => none

/-- Models u256_to_hex (utils.rs): "0x" followed by the minimal lowercase hex
digits of the value ("0x0" for zero). -/
def u256_to_hex (n : Nat) : List Char :=
  '0' :: 'x' :: Nat.toDigits 16 n

/-- Error carried by the GoDatabase adapter (go_db.rs), a descriptive string. -/
structure GoDBError where
  msg : String
deriving DecidableEq

/-- Error taxonomy of the wrapper operations: the anyhow error strings raised
in utils.rs, plus database errors and engine execution failures. -/
inductive FFIError where
  | nullPointer
  | invalidUtf8
  | invalidAddressLength
  | addressNot20Bytes
  | invalidHexDigit
  | invalidU256
  | dbError (e : GoDBError)
  | executionFailure (msg : String)
deriving DecidableEq

/-- Models c_str_to_string (utils.rs): a null pointer is an error, otherwise
the text is returned (the UTF-8 validity check cannot fail in this model,
where text is already a character list). -/
def c_str_to_string (p : Option (List Char)) : Except FFIError (List Char) :=
  match p with
  | none => .error .nullPointer
  | some s => .ok s

/-- hex_to_address lifted into the error monad used by the operation
implementations in utils.rs. -/
def hexToAddressE (s : List Char) : Except FFIError AddrBytes :=
  match hex_to_address s with
  | some a => .ok a
  | none => .error .invalidAddressLength

/-- hex_to_u256 lifted into the error monad used by the operation
implementations in utils.rs. -/
def hexToU256E (s : List Char) : Except FFIError Nat :=
  match hex_to_u256 s with
  | some v => .ok v
  | none => .error .invalidU256

/-- Models FFIAccountInfo (statedb_types.rs) by value: a 256-bit balance
(big-endian 32 bytes on the wire), a 64-bit nonce, and a 32-byte code hash. -/
structure FFIAccountInfoM where
  balance : Nat
  nonce : Nat
  code_hash : List Nat
deriving DecidableEq

/-- Zero-initialized out-parameter buffer passed to re_state_basic. -/
def zeroFFIAccountInfo : FFIAccountInfoM :=
  { balance := 0, nonce := 0, code_hash := List.replicate 32 0 }

/-- Models revm AccountInfo as used by the wrapper: balance, nonce, code hash
and the optional code bytes. -/
structure AccountInfoM where
  balance : Nat
  nonce : Nat
  code_hash : List Nat
  code : Option (List Nat)
deriving DecidableEq

/-- Models ffi_account_to_revm (go_db.rs): the wire account becomes an engine
account with no code attached (code is lazily loaded by hash). -/
def ffi_account_to_revm (acc : FFIAccountInfoM) : AccountInfoM :=
  { balance := acc.balance, nonce := acc.nonce, code_hash := acc.code_hash, code := none }

/-- Wire account built by the commit loop in go_db.rs from an engine account
(u256_to_ffi_u256 on the balance, hash_to_ffi on the code hash). -/
def account_info_to_ffi (i : AccountInfoM) : FFIAccountInfoM :=
  { balance := i.balance, nonce := i.nonce, code_hash := i.code_hash }

/-- Models the return-code match of basic_ref (go_db.rs): 0 is found, 1 is
not found, anything else is a database error. -/
def basic_ref (ret : Int) (out_info : FFIAccountInfoM) :
    Except FFIError (Option AccountInfoM) :=
  if ret = 0 then .ok (some (ffi_account_to_revm out_info))
  else if ret = 1 then .ok none
  else .error (.dbError ⟨"re_state_basic failed"⟩)

/-- Models code_by_hash_ref (go_db.rs): return code 1 yields empty bytecode,
any other non-zero code is an error, a zero length or null buffer yields
empty bytecode, and otherwise the first len bytes of the buffer are copied. -/
def code_by_hash_ref (ret : Int) (bufNull : Bool) (len : Nat) (buf : List Nat) :
    Except FFIError (List Nat) :=
  if ret = 1 then .ok []
  else if ret ≠ 0 then .error (.dbError ⟨"re_state_code failed"⟩)
  else if len = 0 ∨ bufNull then .ok []
  else .ok (buf.take len)

/-- Models revm EvmStorageSlot as the commit loop consumes it: the original
value at transaction start and the present value after execution. -/
structure StorageSlotM where
  original : Nat
  present : Nat
deriving DecidableEq

/-- Models revm state Account as the commit loop consumes it: the resulting
account info and the storage slots touched by execution. -/
structure AccountM where
  info : AccountInfoM
  storage : List (Nat × StorageSlotM)
deriving DecidableEq

/-- Models Account::changed_storage_slots: the touched slots whose present
value differs from their original value. -/
def changed_storage_slots (a : AccountM) : List (Nat × StorageSlotM) :=
  a.storage.filter (fun p => p.2.original ≠ p.2.present)

/-- One write foreign call issued by the commit pipeline (go_db.rs):
re_state_set_basic with a wire account, or re_state_set_storage with a slot
and its new value. -/
inductive WriteCall where
  | setBasic (addr : AddrBytes) (info : FFIAccountInfoM)
  | setStorage (addr : AddrBytes) (slot : Nat) (val : Nat)
deriving DecidableEq

/-- First association-list hit for a key, standing for a map lookup. -/
def dbLookup {α β : Type} [DecidableEq α] (k : α) : List (α × β) → Option β
  | [] => none
  | (k1, v) :: rest => if k1 = k then some v else dbLookup k rest

/-- Modelled from the spec: the host process behind one handle, owning the
durable account and storage state serviced by the re_state foreign calls
(spec section 6), together with the status code each write call reports. -/
structure GoHost where
  accounts : List (AddrBytes × FFIAccountInfoM)
  storage : List ((AddrBytes × Nat) × Nat)
  writeStatus : WriteCall → Int

/-- Modelled from the spec: the foreign call write_account stores the account
summary in the host state and reports a status code (spec section 6). The
returned status is whatever the host chooses to report. -/
def re_state_set_basic (h : GoHost) (addr : AddrBytes) (info : FFIAccountInfoM) :
    GoHost × Int :=
  ({ h with accounts := (addr, info) :: h.accounts },
   h.writeStatus (WriteCall.setBasic addr info))

/-- Modelled from the spec: the foreign call write_storage stores the slot
value in the host state and reports a status code (spec section 6). -/
def re_state_set_storage (h : GoHost) (addr : AddrBytes) (slot val : Nat) :
    GoHost × Int :=
  ({ h with storage := ((addr, slot), val) :: h.storage },
   h.writeStatus (WriteCall.setStorage addr slot val))

/-- Modelled from the spec: the foreign call read_account answers with status
0 and the stored summary, or status 1 when the address is absent
(spec section 6, return-code convention). -/
def re_state_basic_host (h : GoHost) (a : AddrBytes) : Int × FFIAccountInfoM :=
  match dbLookup a h.accounts with
  | some info => (0, info)
  | none => (1, zeroFFIAccountInfo)

/-- The adapter basic lookup against a host: one read_account foreign call,
decoded by the return-code match of basic_ref (go_db.rs). -/
def basicViaHost (h : GoHost) (a : AddrBytes) : Except FFIError (Option AccountInfoM) :=
  let r := re_state_basic_host h a
  basic_ref r.1 r.2

/-- Inner loop of the commit pipeline (go_db.rs): one re_state_set_storage
call per changed slot, in the order produced; statuses are dropped on the
floor exactly as the Rust code discards the i32 results. Returns the updated
host and the trace of calls issued. -/
def commitStorageLoop (h : GoHost) (addr : AddrBytes) :
    List (Nat × StorageSlotM) → GoHost × List WriteCall
  | [] => (h, [])
  | (slot, v) :: rest =>
    let r1 := re_state_set_storage h addr slot v.present
    let r2 := commitStorageLoop r1.1 addr rest
    (r2.1, WriteCall.setStorage addr slot v.present :: r2.2)

/-- Models DatabaseCommit::commit for GoDatabase (go_db.rs): for each account
of the diff, in order, one re_state_set_basic call with the wire account,
then one re_state_set_storage call per changed slot; every returned status
code is discarded. Returns the updated host and the trace of calls issued. -/
def goDatabaseCommit (h : GoHost) :
    List (AddrBytes × AccountM) → GoHost × List WriteCall
  | [] => (h, [])
  | (addr, account) :: rest =>
    let r1 := re_state_set_basic h addr (account_info_to_ffi account.info)
    let r2 := commitStorageLoop r1.1 addr (changed_storage_slots account)
    let r3 := goDatabaseCommit r2.1 rest
    (r3.1, WriteCall.setBasic addr (account_info_to_ffi account.info) :: r2.2 ++ r3.2)

/-- Models revm Output: call output bytes, or create output bytes with the
optionally created address. -/
inductive OutputM where
  | call (bytes : List Nat)
  | create (bytes : List Nat) (addr : Option AddrBytes)
deriving DecidableEq

/-- Models revm Log: emitting address, ordered topic hashes (32 bytes each),
and data bytes. -/
structure LogM where
  address : AddrBytes
  topics : List (List Nat)
  data : List Nat
deriving DecidableEq

/-- Models the revm ExecutionResult variants consumed by
convert_execution_result (utils.rs); the ignored reason fields are kept as
plain naturals. Gas counters are the engine's 64-bit values. -/
inductive ExecutionResultM where
  | success (reason : Nat) (gas_used : Nat) (gas_refunded : Nat)
      (output : OutputM) (logs : List LogM)
  | revert (gas_used : Nat) (output : List Nat)
  | halt (reason : Nat) (gas_used : Nat)
deriving DecidableEq

/-- Models LogFFI (types.rs): pointers become options (none for null). -/
structure LogFFIM where
  address : Option (List Char)
  topics_count : Nat
  topics : Option (List (List Char))
  data : Option (List Nat)
  data_len : Nat
deriving DecidableEq

/-- Debug formatting of a 32-byte topic hash: "0x" then 64 lowercase hex
characters, as B256 formats with the Rust debug formatter in
LogFFI::from_revm_log (types.rs). -/
def topic_debug_hex (t : List Nat) : List Char :=
  '0' :: 'x' :: hexEncode t

/-- Models LogFFI::from_revm_log (types.rs): hex address string, topic count,
debug-formatted topic strings (null when there are none), and the raw data
bytes (null when empty). -/
def from_revm_log (l : LogM) : LogFFIM :=
  { address := some (address_to_hex l.address)
    topics_count := l.topics.length
    topics :=
      if l.topics.isEmpty then none
      else some (l.topics.map topic_debug_hex)
    data := if l.data.isEmpty then none else some l.data
    data_len := l.data.length }

/-- Models ExecutionResultFFI (types.rs): the wire result struct with 32-bit
gas counters and pointer fields modelled as options. -/
structure ExecutionResultFFIM where
  success : Int
  gas_used : Nat
  gas_refunded : Nat
  output_data : Option (List Nat)
  output_len : Nat
  logs_count : Nat
  logs : Option (List LogFFIM)
  created_address : Option (List Char)
deriving DecidableEq

/-- Models u64 into u32 with try_into followed by unwrap_or u32::MAX in
convert_execution_result (utils.rs): the conversion succeeds below 2 ^ 32 and
otherwise clamps to the maximum. -/
def u64_to_u32_saturating (n : Nat) : Nat :=
  if n < 2 ^ 32 then n else 2 ^ 32 - 1

/-- Models convert_execution_result (utils.rs): Success carries clamped gas
used and refunded, output bytes (null when empty) and the converted log
array (null when empty); Revert carries clamped gas used and output with
zero refund and no logs; Halt carries clamped gas used only. -/
def convert_execution_result : ExecutionResultM → ExecutionResultFFIM
  | .success _reason gas_used gas_refunded output logs =>
    let outBytes := match output with
      | .call bytes => bytes
      | .create bytes _ => bytes
    { success := 1
      gas_used := u64_to_u32_saturating gas_used
      gas_refunded := u64_to_u32_saturating gas_refunded
      output_data := if outBytes.isEmpty then none else some outBytes
      output_len := if outBytes.isEmpty then 0 else outBytes.length
      logs_count := logs.length
      logs := if logs.isEmpty then none else some (logs.map from_revm_log)
      created_address := none }
  | .revert gas_used output =>
    { success := 0
      gas_used := u64_to_u32_saturating gas_used
      gas_refunded := 0
      output_data := if output.isEmpty then none else some output
      output_len := if output.isEmpty then 0 else output.length
      logs_count := 0
      logs := none
      created_address := none }
  | .halt _reason gas_used =>
    { success := -1
      gas_used := u64_to_u32_saturating gas_used
      gas_refunded := 0
      output_data := none
      output_len := 0
      logs_count := 0
      logs := none
      created_address := none }

/-- Models TxKind: a plain call to an address or a contract creation. -/
inductive TxKindM where
  | create
  | callTo (a : AddrBytes)
deriving DecidableEq

/-- Models the transaction environment fields set by set_transaction_params
(utils.rs). -/
structure TxM where
  caller : AddrBytes
  kind : TxKindM
  value : Nat
  data : List Nat
  gas_limit : Nat
  gas_price : Nat
  nonce : Nat
deriving DecidableEq

/-- Default transaction environment of a freshly built context. -/
def defaultTx : TxM :=
  { caller := List.replicate 20 0, kind := .callTo (List.replicate 20 0)
    value := 0, data := [], gas_limit := 0, gas_price := 0, nonce := 0 }

/-- Models RevmConfigFFI (types.rs). -/
structure RevmConfigM where
  chain_id : Nat
  spec_id : Nat
  disable_nonce_check : Bool
  disable_balance_check : Bool
  disable_block_gas_limit : Bool
  disable_base_fee : Bool
  max_code_size : Nat
deriving DecidableEq

/-- Models RevmConfigFFI::default (types.rs): mainnet chain 1 at Prague. -/
def revmConfigDefault : RevmConfigM :=
  { chain_id := 1, spec_id := 19
    disable_nonce_check := false, disable_balance_check := false
    disable_block_gas_limit := false, disable_base_fee := false
    max_code_size := 0 }

/-- The execution instance backed by a host-owned state (the StateDB-backed
instance family of lib.rs): configuration, the host behind the GoDatabase
handle, the staged transaction environment, and the last-error slot. -/
structure RevmInstanceM where
  cfg : RevmConfigM
  host : GoHost
  tx : TxM
  lastError : Option FFIError

/-- Models set_transaction_params (utils.rs): parse the caller address, the
optional target address (null means create), the optional hex value, the
data buffer, and the optional hex gas price (null or a value not fitting
u128 falls back to the fixed 1 gwei default); the nonce and limits are
passed numerically. -/
def set_transaction_params (caller toStr value : Option (List Char))
    (data : Option (List Nat)) (data_len gas_limit : Nat)
    (gas_price : Option (List Char)) (nonce : Nat) : Except FFIError TxM := do
  let callerS ← c_str_to_string caller
  let caller_addr ← hexToAddressE callerS
  let kind ← match toStr with
    | none => pure TxKindM.create
    | some _ => do
      let toS ← c_str_to_string toStr
      let to_addr ← hexToAddressE toS
      pure (TxKindM.callTo to_addr)
  let value_v ← match value with
    | none => pure 0
    | some _ => do
      let s ← c_str_to_string value
      hexToU256E s
  let dataB := match data with
    | none => []
    | some d => if data_len = 0 then [] else d.take data_len
  let gp ← match gas_price with
    | none => pure 1000000000
    | some _ => do
      let s ← c_str_to_string gas_price
      let v ← hexToU256E s
      pure (if v < 2 ^ 128 then v else 1000000000)
  pure { caller := caller_addr, kind := kind, value := value_v, data := dataB
         gas_limit := gas_limit, gas_price := gp, nonce := nonce }

/-- Models revm_set_tx (lib.rs): a null instance is the sentinel -1; otherwise
the previous error is cleared, the parameters are parsed and staged, and a
parse failure stores the error and returns -1. -/
def revm_set_tx (inst : Option RevmInstanceM) (caller toStr value : Option (List Char))
    (data : Option (List Nat)) (data_len gas_limit : Nat)
    (gas_price : Option (List Char)) (nonce : Nat) : Int × Option RevmInstanceM :=
  match inst with
  | none => (-1, none)
  | some i =>
    let i1 := { i with lastError := none }
    match set_transaction_params caller toStr value data data_len gas_limit gas_price nonce with
    | .ok tx => (0, some { i1 with tx := tx })
    | .error e => (-1, some { i1 with lastError := some e })

/-- Outcome of an exported constructor call: a live instance, the null-pointer
sentinel, or a panic that unwinds through the C boundary and aborts the
process. -/
inductive FFIReturn (α : Type) where
  | ok (value : α)
  | nullSentinel
  | processAbort

/-- Models revm_new_with_config (lib.rs): a null config pointer returns the
null sentinel; every non-null config reaches the unimplemented macro at the
end of the function, a panic that aborts the process across the C ABI. -/
def revm_new_with_config (config : Option RevmConfigM) : FFIReturn Unit :=
  match config with
  | none => .nullSentinel
  | some _ => .processAbort

/-- Models revm_new (lib.rs): delegates to revm_new_with_config with the
default configuration. -/
def revm_new : FFIReturn Unit :=
  revm_new_with_config (some revmConfigDefault)

/-- Models revm_new_with_statedb (lib.rs): a null config falls back to the
default by value, the GoDatabase wraps the handle (standing for the given
host state), and a boxed instance is always returned. -/
def revm_new_with_statedb (host : GoHost) (config : Option RevmConfigM) :
    FFIReturn RevmInstanceM :=
  let cfg_val := match config with
    | none => revmConfigDefault
    | some c => c
  .ok { cfg := cfg_val, host := host, tx := defaultTx, lastError := none }

/-- Models revm_execute (lib.rs) over a black-box engine replay function: a
successful replay marshals the outcome and leaves the instance untouched (no
commit call is made); a replay error is stored in the last-error slot and
the null sentinel is returned. -/
def revm_execute
    (replay : TxM → GoHost → Except FFIError (ExecutionResultM × List (AddrBytes × AccountM)))
    (inst : RevmInstanceM) : Option ExecutionResultFFIM × RevmInstanceM :=
  match replay inst.tx inst.host with
  | .ok rs => (some (convert_execution_result rs.1), inst)
  | .error e => (none, { inst with lastError := some e })

/-- Models revm_execute_commit (lib.rs) over a black-box engine replay
function: a successful replay pushes the produced state diff through the
commit pipeline exactly once and marshals the outcome; a replay error is
stored in the last-error slot. The commit call itself returns no status and
touches no error state. -/
def revm_execute_commit
    (replay : TxM → GoHost → Except FFIError (ExecutionResultM × List (AddrBytes × AccountM)))
    (inst : RevmInstanceM) : Option ExecutionResultFFIM × RevmInstanceM :=
  match replay inst.tx inst.host with
  | .ok rs =>
    (some (convert_execution_result rs.1),
     { inst with host := (goDatabaseCommit inst.host rs.2).1 })
  | .error e => (none, { inst with lastError := some e })

/-- Models get_balance_impl (utils.rs), generic in the database basic lookup
exactly as the instance families share this logic: parse the address, query
basic, format a found balance as hex, and answer "0x0" for a missing
account. -/
def get_balance_impl (basicFn : AddrBytes → Except FFIError (Option AccountInfoM))
    (address : Option (List Char)) : Except FFIError (List Char) := do
  let s ← c_str_to_string address
  let addr ← hexToAddressE s
  match basicFn addr with
  | .ok (some acc) => .ok (u256_to_hex acc.balance)
  | .ok none => .ok ('0' :: 'x' :: ['0'])
  | .error e => .error e

/-- Models revm_get_balance (lib.rs): a null instance or address pointer is
the null sentinel; otherwise get_balance_impl runs, and its error is stored
in the last-error slot with a null sentinel returned. -/
def revm_get_balance (inst : Option RevmInstanceM) (address : Option (List Char)) :
    Option (List Char) × Option RevmInstanceM :=
  match inst, address with
  | none, _ => (none, inst)
  | some _, none => (none, inst)
  | some i, some s =>
    match get_balance_impl (basicViaHost i.host) (some s) with
    | .ok bal => (some bal, some i)
    | .error e => (none, some { i with lastError := some e })

/-- Keccak-256 of the empty byte string, the code hash revm gives codeless
accounts (KECCAK_EMPTY). -/
def KECCAK_EMPTY : List Nat :=
  [0xc5, 0xd2, 0x46, 0x01, 0x86, 0xf7, 0x23, 0x3c,
   0x92, 0x7e, 0x7d, 0xb2, 0xdc, 0xc7, 0x03, 0xc0,
   0xe5, 0x00, 0xb6, 0x53, 0xca, 0x82, 0x27, 0x3b,
   0x7b, 0xfa, 0xd8, 0x04, 0x5d, 0x85, 0xa4, 0x70]

/-- Models CacheDB as the in-memory instance family uses it: an account cache
and a storage cache. -/
structure CacheDbM where
  accounts : List (AddrBytes × AccountInfoM)
  storage : List ((AddrBytes × Nat) × Nat)
deriving DecidableEq

/-- Models CacheDB::insert_account_info: the cache entry for the address is
replaced by the given account info. -/
def insert_account_info (db : CacheDbM) (a : AddrBytes) (i : AccountInfoM) : CacheDbM :=
  { db with accounts := (a, i) :: db.accounts }

/-- Models Database::basic on a CacheDB over an empty backing database: a
cache hit answers the stored info and a miss answers None, never an error. -/
def cacheDbBasicFn (db : CacheDbM) : AddrBytes → Except FFIError (Option AccountInfoM) :=
  fun a => .ok (dbLookup a db.accounts)

/-- Models set_balance_impl (utils.rs): parse the address and balance, then
insert a fresh account info carrying the balance, nonce zero, the empty code
hash and empty code, replacing whatever was stored for that address. -/
def set_balance_impl (db : CacheDbM) (address balance : Option (List Char)) :
    Except FFIError CacheDbM := do
  let s ← c_str_to_string address
  let addr ← hexToAddressE s
  let sb ← c_str_to_string balance
  let bal ← hexToU256E sb
  pure (insert_account_info db addr
    { balance := bal, nonce := 0, code_hash := KECCAK_EMPTY, code := some [] })

/-- Models get_nonce_impl (utils.rs), generic in the database basic lookup:
parse the address, query basic, answer the stored nonce or zero for a
missing account. -/
def get_nonce_impl (basicFn : AddrBytes → Except FFIError (Option AccountInfoM))
    (address : Option (List Char)) : Except FFIError Nat := do
  let s ← c_str_to_string address
  let addr ← hexToAddressE s
  match basicFn addr with
  | .ok (some acc) => .ok acc.nonce
  | .ok none => .ok 0
  | .error e => .error e

/-- Rounding an offset up to a multiple of an alignment, the C struct layout
rule. -/
def alignUp (off a : Nat) : Nat :=
  ((off + a - 1) / a) * a

/-- Size and alignment of a C struct (repr C) from the ordered field sizes and
alignments: each field is placed at the next aligned offset, the struct
alignment is the largest field alignment, and the total is rounded up to it. -/
def structSizeAlign (fields : List (Nat × Nat)) : Nat × Nat :=
  let p := fields.foldl (fun acc f => (alignUp acc.1 f.2 + f.1, max acc.2 f.2)) (0, 1)
  (alignUp p.1 p.2, p.2)

/-- Layout of FFIAddress (statedb_types.rs): one field, a 20-byte array of
bytes. -/
def ffiAddressLayout : Nat × Nat := structSizeAlign [(20, 1)]

/-- Layout of FFIHash (statedb_types.rs): one field, a 32-byte array of
bytes. -/
def ffiHashLayout : Nat × Nat := structSizeAlign [(32, 1)]

/-- Layout of FFIU256 (statedb_types.rs): one field, a 32-byte array of
bytes. -/
def ffiU256Layout : Nat × Nat := structSizeAlign [(32, 1)]

/-- Layout of FFIAccountInfo (statedb_types.rs): an FFIU256 balance, a u64
nonce (8 bytes, 8-byte alignment on the supported targets), and an FFIHash
code hash, laid out in declaration order under repr C. -/
def ffiAccountInfoLayout : Nat × Nat :=
  structSizeAlign
    [(ffiU256Layout.1, ffiU256Layout.2), (8, 8), (ffiHashLayout.1, ffiHashLayout.2)]

theorem char_toNat_ofNat_valid (n : Nat) (h : n < 55296) : (Char.ofNat n).toNat = n := by
  have hv : Nat.isValidChar n := Or.inl h
  simp [Char.ofNat, hv, Char.ofNatAux, Char.toNat, UInt32.toNat]

theorem hexVal_lt_16_and_encode (c : Char) (v : Nat) (h : hexVal c = some v) :
    v < 16 ∧ toHexChar v = charToLower c := by
  unfold hexVal at h
  split_ifs at h with h1 h2 h3
  · cases h
    refine ⟨by omega, ?_⟩
    unfold toHexChar charToLower
    rw [if_pos (by omega), if_neg (by omega)]
    have : 48 + (c.toNat - 48) = c.toNat := by omega
    rw [this, Char.ofNat_toNat]
  · cases h
    refine ⟨by omega, ?_⟩
    unfold toHexChar charToLower
    rw [if_neg (by omega), if_neg (by omega)]
    have : 87 + (c.toNat - 87) = c.toNat := by omega
    rw [this, Char.ofNat_toNat]
  · cases h
    refine ⟨by omega, ?_⟩
    unfold toHexChar charToLower
    rw [if_neg (by omega), if_pos (by omega)]
    have : 87 + (c.toNat - 55) = c.toNat + 32 := by omega
    rw [this]

theorem hexVal_toHexChar (n : Nat) (h : n < 16) : hexVal (toHexChar n) = some n := by
  unfold toHexChar hexVal
  by_cases h10 : n < 10
  · rw [if_pos h10]
    have ht : (Char.ofNat (48 + n)).toNat = 48 + n :=
      char_toNat_ofNat_valid (48 + n) (by omega)
    rw [ht, if_pos (by omega)]
    simp
  · rw [if_neg h10]
    have ht : (Char.ofNat (87 + n)).toNat = 87 + n :=
      char_toNat_ofNat_valid (87 + n) (by omega)
    rw [ht, if_neg (by omega), if_pos (by omega)]
    simp [Nat.add_sub_cancel_left]

theorem hexDecode_spec (t : List Char) :
    ∀ bs, hexDecode t = some bs →
      hexEncode bs = t.map charToLower ∧ t.length = 2 * bs.length ∧ ∀ b ∈ bs, b < 256 := by
  induction t using hexDecode.induct with
  | case1 =>
    intro bs h
    simp [hexDecode] at h
    subst h
    simp [hexEncode]
  | case2 c =>
    intro bs h
    simp [hexDecode] at h
  | case3 c1 c2 rest hi lo bs1 hrest hlo hhi ih =>
    intro bs h
    unfold hexDecode at h
    rw [hhi, hlo, hrest] at h
    simp at h
    subst h
    obtain ⟨hhi16, he1⟩ := hexVal_lt_16_and_encode c1 hi hhi
    obtain ⟨hlo16, he2⟩ := hexVal_lt_16_and_encode c2 lo hlo
    obtain ⟨ihe, ihl, ihb⟩ := ih bs1 hrest
    refine ⟨?_, ?_, ?_⟩
    · unfold hexEncode
      have hd : (16 * hi + lo) / 16 = hi := by omega
      have hm : (16 * hi + lo) % 16 = lo := by omega
      rw [hd, hm, he1, he2, ihe]
      simp
    · simp [ihl]
      omega
    · intro b hb
      rcases List.mem_cons.mp hb with hb | hb
      · omega
      · exact ihb b hb
  | case4 c1 c2 rest hfail ih =>
    intro bs h
    exfalso
    unfold hexDecode at h
    cases h1 : hexVal c1 with
    | none => rw [h1] at h; simp at h
    | some hi =>
      cases h2 : hexVal c2 with
      | none => rw [h1, h2] at h; simp at h
      | some lo =>
        cases h3 : hexDecode rest with
        | none => rw [h1, h2, h3] at h; simp at h
        | some bs1 => exact hfail hi lo bs1 h1 h2 h3

theorem hexDecode_hexEncode (bs : List Nat) (h : ∀ b ∈ bs, b < 256) :
    hexDecode (hexEncode bs) = some bs := by
  induction bs with
  | nil => simp [hexEncode, hexDecode]
  | cons b rest ih =>
    have hb : b < 256 := h b (List.mem_cons_self b rest)
    have hrest : ∀ x ∈ rest, x < 256 := fun x hx => h x (List.mem_cons_of_mem b hx)
    unfold hexEncode hexDecode
    rw [hexVal_toHexChar (b / 16) (by omega), hexVal_toHexChar (b % 16) (by omega),
        ih hrest]
    show some ((16 * (b / 16) + b % 16) :: rest) = some (b :: rest)
    rw [Nat.div_add_mod]

theorem hexEncode_length (bs : List Nat) : (hexEncode bs).length = 2 * bs.length := by
  induction bs with
  | nil => simp [hexEncode]
  | cons b rest ih => simp [hexEncode, ih]; omega

theorem strip0x_prepend (r : List Char) : strip0x ('0' :: 'x' :: r) = r := by
  simp [strip0x]

theorem hex_to_address_spec (s : List Char) (a : AddrBytes)
    (h : hex_to_address s = some a) :
    (strip0x s).length = 40 ∧ hexDecode (strip0x s) = some a ∧
      a.length = 20 ∧ ∀ b ∈ a, b < 256 := by
  unfold hex_to_address at h
  split_ifs at h with hl
  cases hd : hexDecode (strip0x s) with
  | none => rw [hd] at h; simp at h
  | some bs =>
    rw [hd] at h
    have h1 : (if bs.length = 20 then some bs else none) = some a := h
    split_ifs at h1 with h20
    cases h1
    exact ⟨hl, rfl, h20, (hexDecode_spec _ _ hd).2.2⟩

theorem address_to_hex_parses (a : AddrBytes) (hl : a.length = 20)
    (hb : ∀ b ∈ a, b < 256) : hex_to_address (address_to_hex a) = some a := by
  unfold hex_to_address address_to_hex
  rw [strip0x_prepend, hexEncode_length, hl]
  rw [if_pos (by norm_num), hexDecode_hexEncode a hb]
  show (if a.length = 20 then some a else none) = some a
  rw [if_pos hl]

theorem commitStorageLoop_trace (addr : AddrBytes) (slots : List (Nat × StorageSlotM)) :
    ∀ h : GoHost, (commitStorageLoop h addr slots).2 =
      slots.map (fun q => WriteCall.setStorage addr q.1 q.2.present) := by
  induction slots with
  | nil => intro h; rfl
  | cons q rest ih =>
    intro h
    cases q with
    | mk slot v => simp [commitStorageLoop, ih]

theorem u64_sat_eq_min (n : Nat) : u64_to_u32_saturating n = min n (2 ^ 32 - 1) := by
  unfold u64_to_u32_saturating
  split_ifs with h <;> omega

/-- C3: for every diff handed to the commit pipeline, the pipeline issues, for
each touched account in the order the diff was produced with no re-ordering
and no deduplication across accounts, exactly one account-write call carrying
the updated wire account, followed by one storage-write call per changed slot
carrying that slot's present value, in the order the slots were produced. -/
theorem commit_pipeline_emits_account_then_changed_slots (h : GoHost)
    (changes : List (AddrBytes × AccountM)) :
    (goDatabaseCommit h changes).2 =
      changes.flatMap (fun p =>
        WriteCall.setBasic p.1 (account_info_to_ffi p.2.info) ::
          (changed_storage_slots p.2).map
            (fun q => WriteCall.setStorage p.1 q.1 q.2.present)) := by
  induction changes generalizing h with
  | nil => rfl
  | cons p rest ih =>
    cases p with
    | mk addr account =>
      simp [goDatabaseCommit, commitStorageLoop_trace, ih]

/-- C7: when converting the engine outcome to the wire result, a Success
outcome's gas used and gas refunded are clamped by saturation to the u32
maximum while the outcome stays a success; a Revert result carries clamped
gas used and the output with zero refund and no logs; a Halt result carries
clamped gas used only, with no output and no logs. -/
theorem convert_execution_result_marshaling :
    (∀ reason g r output logs,
      (convert_execution_result (.success reason g r output logs)).success = 1
      ∧ (convert_execution_result (.success reason g r output logs)).gas_used
          = min g (2 ^ 32 - 1)
      ∧ (convert_execution_result (.success reason g r output logs)).gas_refunded
          = min r (2 ^ 32 - 1))
    ∧ (∀ g out, convert_execution_result (.revert g out) =
        { success := 0, gas_used := min g (2 ^ 32 - 1), gas_refunded := 0
          output_data := if out.isEmpty then none else some out
          output_len := if out.isEmpty then 0 else out.length
          logs_count := 0, logs := none, created_address := none })
    ∧ (∀ reason g, convert_execution_result (.halt reason g) =
        { success := -1, gas_used := min g (2 ^ 32 - 1), gas_refunded := 0
          output_data := none, output_len := 0, logs_count := 0, logs := none
          created_address := none }) := by
  refine ⟨fun reason g r output logs => ?_, fun g out => ?_, fun reason g => ?_⟩ <;>
    simp [convert_execution_result, u64_sat_eq_min]

/-- C8: the computed repr-C byte sizes of the wire-format structs are exactly
Address = 20, Hash = 32, UInt256 = 32 and AccountSummary = 72. -/
theorem ffi_layout_sizes :
    ffiAddressLayout.1 = 20 ∧ ffiHashLayout.1 = 32 ∧ ffiU256Layout.1 = 32 ∧
      ffiAccountInfoLayout.1 = 72 := by
  decide

/-- C9: for every address string that hex_to_address accepts (40 hex characters
with or without a "0x" prefix), formatting the parsed address yields the
canonical lowercase "0x"-prefixed form of the same digits, and parsing that
canonical form again returns the same address. -/
theorem hex_address_parse_format_roundtrip (s : List Char) (a : AddrBytes)
    (h : hex_to_address s = some a) :
    address_to_hex a = '0' :: 'x' :: (strip0x s).map charToLower
    ∧ hex_to_address (address_to_hex a) = some a := by
  obtain ⟨hl, hd, h20, hb⟩ := hex_to_address_spec s a h
  obtain ⟨he, -, -⟩ := hexDecode_spec _ _ hd
  exact ⟨by rw [address_to_hex, he], address_to_hex_parses a h20 hb⟩

/-- Concrete mixed-case prefixed address string used to witness C9. -/
def c9s : List Char := "0x0123456789abcdefABCDEF0123456789abcdef01".toList

/-- Byte value of the C9 witness address. -/
def c9addr : AddrBytes :=
  [1, 35, 69, 103, 137, 171, 205, 239, 171, 205, 239, 1,
   35, 69, 103, 137, 171, 205, 239, 1]

/-- Witness for C9 at a concrete mixed-case address string. -/
theorem hex_address_parse_format_roundtrip_witness :
    address_to_hex c9addr = '0' :: 'x' :: (strip0x c9s).map charToLower
    ∧ hex_to_address (address_to_hex c9addr) = some c9addr :=
  hex_address_parse_format_roundtrip c9s c9addr (by decide)

/-- C4: the basic account lookup maps host return code 0 to a found account,
1 to not-found and every other code to a typed error; and on an address the
host reports as not-found the adapter answers None rather than an error, so
get_balance yields "0x0" and get_nonce yields 0 for such an address. -/
theorem basic_lookup_code_convention (info : FFIAccountInfoM) (r : Int)
    (h0 : r ≠ 0) (h1 : r ≠ 1) (h : GoHost) (s : List Char) (a : AddrBytes)
    (hs : hex_to_address s = some a) (hnf : dbLookup a h.accounts = none) :
    basic_ref 0 info = .ok (some (ffi_account_to_revm info))
    ∧ basic_ref 1 info = .ok none
    ∧ basic_ref r info = .error (.dbError ⟨"re_state_basic failed"⟩)
    ∧ basicViaHost h a = .ok none
    ∧ get_balance_impl (basicViaHost h) (some s) = .ok ('0' :: 'x' :: ['0'])
    ∧ get_nonce_impl (basicViaHost h) (some s) = .ok 0 := by
  have hbv : basicViaHost h a = .ok none := by
    simp [basicViaHost, re_state_basic_host, hnf, basic_ref]
  refine ⟨by simp [basic_ref], by simp [basic_ref], ?_, hbv, ?_, ?_⟩
  · simp [basic_ref, h0, h1]
  · simp [get_balance_impl, c_str_to_string, hexToAddressE, hs, hbv,
      Bind.bind, Except.bind]
  · simp [get_nonce_impl, c_str_to_string, hexToAddressE, hs, hbv,
      Bind.bind, Except.bind]

/-- Concrete all-zero address string used to witness C4. -/
def c4s : List Char := "0x0000000000000000000000000000000000000000".toList

/-- Concrete empty host used to witness C4: it knows no account, so every
read_account answers status 1. -/
def c4host : GoHost := { accounts := [], storage := [], writeStatus := fun _ => 0 }

/-- Witness for C4 at a concrete host with no accounts, return code 7 for the
error case, and the all-zero address. -/
theorem basic_lookup_code_convention_witness :
    basic_ref 0 zeroFFIAccountInfo = .ok (some (ffi_account_to_revm zeroFFIAccountInfo))
    ∧ basic_ref 1 zeroFFIAccountInfo = .ok none
    ∧ basic_ref 7 zeroFFIAccountInfo = .error (.dbError ⟨"re_state_basic failed"⟩)
    ∧ basicViaHost c4host (List.replicate 20 0) = .ok none
    ∧ get_balance_impl (basicViaHost c4host) (some c4s) = .ok ('0' :: 'x' :: ['0'])
    ∧ get_nonce_impl (basicViaHost c4host) (some c4s) = .ok 0 :=
  basic_lookup_code_convention zeroFFIAccountInfo 7 (by decide) (by decide)
    c4host c4s (List.replicate 20 0) (by decide) rfl

/-- C5: code_by_hash yields zero-length code when the host reports not-found
(return code 1) or returns a zero length or a null buffer, and yields a typed
error for every other non-zero return code; not-found is never an error. -/
theorem code_by_hash_not_found_is_empty (bufNull : Bool) (len : Nat)
    (buf : List Nat) (r : Int) (h0 : r ≠ 0) (h1 : r ≠ 1) :
    code_by_hash_ref 1 bufNull len buf = .ok []
    ∧ code_by_hash_ref 0 bufNull 0 buf = .ok []
    ∧ code_by_hash_ref 0 true len buf = .ok []
    ∧ code_by_hash_ref r bufNull len buf = .error (.dbError ⟨"re_state_code failed"⟩) := by
  refine ⟨rfl, ?_, ?_, ?_⟩
  · simp [code_by_hash_ref]
  · simp [code_by_hash_ref]
  · simp [code_by_hash_ref, h0, h1]

/-- Witness for C5 at a concrete non-null buffer of three bytes and the
error return code 9. -/
theorem code_by_hash_not_found_is_empty_witness :
    code_by_hash_ref 1 false 3 [1, 2, 3] = .ok []
    ∧ code_by_hash_ref 0 false 0 [1, 2, 3] = .ok []
    ∧ code_by_hash_ref 0 true 3 [1, 2, 3] = .ok []
    ∧ code_by_hash_ref 9 false 3 [1, 2, 3] = .error (.dbError ⟨"re_state_code failed"⟩) :=
  code_by_hash_not_found_is_empty false 3 [1, 2, 3] 9 (by decide) (by decide)

/-- Malformed configuration used against C6: spec id 200 is no recognized
hardfork ordinal. -/
def c6badConfig : RevmConfigM := { revmConfigDefault with spec_id := 200 }

/-- C6 counterexample: a non-null but malformed config (unknown hardfork
ordinal 200) makes revm_new_with_config reach the unimplemented panic, which
aborts the process across the C boundary instead of returning the null
sentinel, refuting the no-abort guarantee for the instance constructors. -/
theorem new_with_config_aborts_on_malformed_config :
    revm_new_with_config (some c6badConfig) = FFIReturn.processAbort := rfl

/-- C6 amended: every modelled exported entry point returns its sentinel on a
null required pointer without aborting, and the StateDB constructor never
aborts; but revm_new_with_config (and revm_new, which delegates to it with
the non-null default config) aborts the process for every non-null config,
malformed or not, via its unimplemented panic. -/
theorem entry_points_fail_safely_except_generic_constructor :
    revm_new_with_config none = FFIReturn.nullSentinel
    ∧ (∀ cfg, revm_new_with_config (some cfg) = FFIReturn.processAbort)
    ∧ revm_new = FFIReturn.processAbort
    ∧ (∀ caller toStr value data data_len gas_limit gas_price nonce,
        (revm_set_tx none caller toStr value data data_len gas_limit
          gas_price nonce).1 = -1)
    ∧ (∀ address, (revm_get_balance none address).1 = none)
    ∧ (∀ i, (revm_get_balance (some i) none).1 = none)
    ∧ (∀ host cfg, revm_new_with_statedb host cfg ≠ FFIReturn.processAbort) := by
  refine ⟨rfl, fun _ => rfl, rfl, fun _ _ _ _ _ _ _ _ => rfl, fun _ => rfl,
    fun _ => rfl, fun host cfg heq => ?_⟩
  cases cfg <;> exact FFIReturn.noConfusion heq

/-- C1: for every staged transaction whose replay produces an outcome and a
one-account transfer diff, revm_execute leaves the visible host state
untouched — get_balance answers the same before and after — while
revm_execute_commit pushes the diff through the commit pipeline exactly
once, after which get_balance on the recipient answers the old balance plus
the transferred value applied a single time. -/
theorem execute_preserves_state_and_commit_applies_once
    (replay : TxM → GoHost →
      Except FFIError (ExecutionResultM × List (AddrBytes × AccountM)))
    (inst : RevmInstanceM) (sAddr : List Char) (res : ExecutionResultM)
    (toA : AddrBytes) (acc : AccountM) (bal0 v : Nat)
    (hre : replay inst.tx inst.host = .ok (res, [(toA, acc)]))
    (hbal : acc.info.balance = bal0 + v)
    (hsl : acc.storage = [])
    (hlen : toA.length = 20) (hbytes : ∀ b ∈ toA, b < 256) :
    (revm_execute replay inst).2.host = inst.host
    ∧ get_balance_impl (basicViaHost (revm_execute replay inst).2.host) (some sAddr)
        = get_balance_impl (basicViaHost inst.host) (some sAddr)
    ∧ (revm_execute_commit replay inst).2.host
        = (goDatabaseCommit inst.host [(toA, acc)]).1
    ∧ get_balance_impl (basicViaHost (revm_execute_commit replay inst).2.host)
        (some (address_to_hex toA)) = .ok (u256_to_hex (bal0 + v)) := by
  have hex1 : (revm_execute replay inst).2.host = inst.host := by
    simp [revm_execute, hre]
  have hcommit : (revm_execute_commit replay inst).2.host
      = (goDatabaseCommit inst.host [(toA, acc)]).1 := by
    simp [revm_execute_commit, hre]
  have hchanged : changed_storage_slots acc = [] := by
    simp [changed_storage_slots, hsl]
  have hhost : (goDatabaseCommit inst.host [(toA, acc)]).1
      = { inst.host with
            accounts := (toA, account_info_to_ffi acc.info) :: inst.host.accounts } := by
    simp [goDatabaseCommit, hchanged, commitStorageLoop, re_state_set_basic]
  refine ⟨hex1, by rw [hex1], hcommit, ?_⟩
  rw [hcommit, hhost]
  simp [get_balance_impl, c_str_to_string, hexToAddressE,
    address_to_hex_parses toA hlen hbytes, basicViaHost, re_state_basic_host,
    dbLookup, basic_ref, ffi_account_to_revm, account_info_to_ffi, hbal,
    Bind.bind, Except.bind]

/-- Concrete recipient address of the C1 witness transfer. -/
def c1to : AddrBytes :=
  [0, 1, 2, 3, 4, 5, 6, 7, 8, 9, 10, 11, 12, 13, 14, 15, 16, 17, 18, 255]

/-- Concrete post-transfer account of the C1 witness: balance 7 = 5 + 2. -/
def c1acc : AccountM :=
  { info := { balance := 7, nonce := 1, code_hash := KECCAK_EMPTY, code := none }
    storage := [] }

/-- Concrete host of the C1 witness. -/
def c1host : GoHost := { accounts := [], storage := [], writeStatus := fun _ => 0 }

/-- Concrete instance of the C1 witness. -/
def c1inst : RevmInstanceM :=
  { cfg := revmConfigDefault, host := c1host, tx := defaultTx, lastError := none }

/-- Concrete engine behavior of the C1 witness: every replay succeeds with a
one-account diff giving the recipient balance 7. -/
def c1replay : TxM → GoHost →
    Except FFIError (ExecutionResultM × List (AddrBytes × AccountM)) :=
  fun _ _ => .ok (.success 0 21000 0 (.call []) [], [(c1to, c1acc)])

/-- Witness for C1 at the concrete transfer of value 2 onto old balance 5. -/
theorem execute_preserves_state_and_commit_applies_once_witness :
    (revm_execute c1replay c1inst).2.host = c1inst.host
    ∧ get_balance_impl (basicViaHost (revm_execute c1replay c1inst).2.host)
        (some ('a' :: 'b' :: []))
        = get_balance_impl (basicViaHost c1inst.host) (some ('a' :: 'b' :: []))
    ∧ (revm_execute_commit c1replay c1inst).2.host
        = (goDatabaseCommit c1inst.host [(c1to, c1acc)]).1
    ∧ get_balance_impl (basicViaHost (revm_execute_commit c1replay c1inst).2.host)
        (some (address_to_hex c1to)) = .ok (u256_to_hex (5 + 2)) :=
  execute_preserves_state_and_commit_applies_once c1replay c1inst
    ('a' :: 'b' :: []) (.success 0 21000 0 (.call []) []) c1to c1acc 5 2
    rfl rfl rfl (by decide) (by decide)

/-- Concrete host of the C2 scenario: every write call reports status -1. -/
def c2host : GoHost := { accounts := [], storage := [], writeStatus := fun _ => -1 }

/-- Concrete touched account of the C2 scenario. -/
def c2acc : AccountM :=
  { info := { balance := 5, nonce := 1, code_hash := KECCAK_EMPTY, code := none }
    storage := [] }

/-- Concrete touched address of the C2 scenario. -/
def c2addr : AddrBytes := List.replicate 20 7

/-- Concrete engine behavior of the C2 scenario: replay succeeds with a halt
outcome and a one-account diff. -/
def c2replay : TxM → GoHost →
    Except FFIError (ExecutionResultM × List (AddrBytes × AccountM)) :=
  fun _ _ => .ok (.halt 0 21000, [(c2addr, c2acc)])

/-- Concrete instance of the C2 scenario, with an empty last-error slot. -/
def c2inst : RevmInstanceM :=
  { cfg := revmConfigDefault, host := c2host, tx := defaultTx, lastError := none }

/-- C2 counterexample: the commit pipeline issues a write call, that call
reports error status -1, the already-executed outcome is still returned —
but the instance's last-error slot stays empty, because GoDatabase commit
discards every write status; the failure is not recorded anywhere. -/
theorem commit_write_error_not_recorded_counterexample :
    (goDatabaseCommit c2inst.host [(c2addr, c2acc)]).2 =
      [WriteCall.setBasic c2addr (account_info_to_ffi c2acc.info)]
    ∧ c2inst.host.writeStatus
        (WriteCall.setBasic c2addr (account_info_to_ffi c2acc.info)) = -1
    ∧ (revm_execute_commit c2replay c2inst).1 =
        some (convert_execution_result (.halt 0 21000))
    ∧ (revm_execute_commit c2replay c2inst).2.lastError = none :=
  ⟨rfl, rfl, rfl, rfl⟩

/-- C2 amended: when the commit phase of execute_and_commit runs, the
already-executed outcome is returned to the caller whatever status codes the
write calls report, and the instance's last-error slot is left exactly as it
was — commit write failures are discarded, not recorded. -/
theorem execute_commit_ignores_write_statuses
    (replay : TxM → GoHost →
      Except FFIError (ExecutionResultM × List (AddrBytes × AccountM)))
    (inst : RevmInstanceM) (res : ExecutionResultM)
    (st : List (AddrBytes × AccountM))
    (hre : replay inst.tx inst.host = .ok (res, st)) :
    (revm_execute_commit replay inst).1 = some (convert_execution_result res)
    ∧ (revm_execute_commit replay inst).2.lastError = inst.lastError := by
  simp [revm_execute_commit, hre]

/-- Witness for the amended C2 at the concrete all-writes-fail host. -/
theorem execute_commit_ignores_write_statuses_witness :
    (revm_execute_commit c2replay c2inst).1 =
      some (convert_execution_result (.halt 0 21000))
    ∧ (revm_execute_commit c2replay c2inst).2.lastError = c2inst.lastError :=
  execute_commit_ignores_write_statuses c2replay c2inst (.halt 0 21000)
    [(c2addr, c2acc)] rfl

/-- C10: set_balance installs an account whose balance is the given value,
whose nonce is 0 and whose code is empty (the empty code hash with empty
code), replacing whatever was stored for that address, so get_nonce
immediately after set_balance answers 0. -/
theorem set_balance_installs_fresh_account (db : CacheDbM) (sa sb : List Char)
    (addr : AddrBytes) (bal : Nat)
    (ha : hex_to_address sa = some addr) (hb : hex_to_u256 sb = some bal) :
    ∃ db1, set_balance_impl db (some sa) (some sb) = .ok db1
      ∧ dbLookup addr db1.accounts =
          some { balance := bal, nonce := 0, code_hash := KECCAK_EMPTY, code := some [] }
      ∧ get_nonce_impl (cacheDbBasicFn db1) (some sa) = .ok 0 := by
  refine ⟨insert_account_info db addr
    { balance := bal, nonce := 0, code_hash := KECCAK_EMPTY, code := some [] },
    ?_, ?_, ?_⟩
  · simp [set_balance_impl, c_str_to_string, hexToAddressE, ha, hexToU256E, hb,
      Bind.bind, Except.bind, pure, Except.pure]
  · simp [insert_account_info, dbLookup]
  · simp [get_nonce_impl, c_str_to_string, hexToAddressE, ha, cacheDbBasicFn,
      insert_account_info, dbLookup, Bind.bind, Except.bind]

/-- Concrete previous database of the C10 witness: the address already holds
an account with nonce 3 and one code byte, which set_balance must discard. -/
def c10db : CacheDbM :=
  { accounts := [(List.replicate 20 0,
      { balance := 9, nonce := 3, code_hash := KECCAK_EMPTY, code := some [1] })]
    storage := [] }

/-- Witness for C10 at the all-zero address and balance 0x1234. -/
theorem set_balance_installs_fresh_account_witness :
    ∃ db1, set_balance_impl c10db (some c4s) (some ('0' :: 'x' :: '1' :: '2' :: '3' :: '4' :: [])) = .ok db1
      ∧ dbLookup (List.replicate 20 0) db1.accounts =
          some { balance := 4660, nonce := 0, code_hash := KECCAK_EMPTY, code := some [] }
      ∧ get_nonce_impl (cacheDbBasicFn db1) (some c4s) = .ok 0 :=
  set_balance_installs_fresh_account c10db c4s
    ('0' :: 'x' :: '1' :: '2' :: '3' :: '4' :: []) (List.replicate 20 0) 4660
    (by decide) (by decide)

end RevmSpec
